import Mathlib

/-!
# The key-generation workload loop of `pkg/keygen/workload.go`

A shallow embedding of the `workload` type and of its methods `startWork`,
`work`, `isDone`, `done` and `itemDone`, followed by the properties of the
loop: which stop condition ends it, when the process is terminated, how the
counter evolves and what each status line contains.

Effects are made explicit.  The log output and the calls of `work` and `done`
are appended to a trace, `os.Exit` is a result constructor after which nothing
else runs, and everything the loop reads from outside (readiness of the two
channels, the branch `select` takes, the outcome of key generation, the clock)
is an input supplied per iteration.
-/

namespace Keygen

/-! ## Machine integers -/

/-- Largest value of Go's `int` on a 64-bit target. -/
def maxInt : Int := 2 ^ 63 - 1

/-- Smallest value of Go's `int` on a 64-bit target. -/
def minInt : Int := -(2 ^ 63)

/-- Two's-complement wrap-around of a mathematical integer into 64 bits, the
result Go gives for an overflowing signed addition or multiplication. -/
def wrapInt (x : Int) : Int := (x + 2 ^ 63) % 2 ^ 64 - 2 ^ 63

/-- The values a Go `int` can hold. -/
def isInt (x : Int) : Prop := minInt ≤ x ∧ x ≤ maxInt

instance (x : Int) : Decidable (isInt x) := by
  unfold isInt
  exact inferInstance

/-! ## Data model -/

/-- Modelled from the spec: the declaration of `Config` is not part of
`workload.go`; these are the four fields the file reads (`w.c.TimeToRun`,
`w.c.NumToGen`, `w.c.ExitOnComplete`, `w.c.ExitCode`), which the spec lists as
run duration in seconds, item count ceiling, exit-on-complete flag and exit
code. -/
structure Config where
  TimeToRun : Int
  NumToGen : Int
  ExitOnComplete : Bool
  ExitCode : Int
  deriving DecidableEq, Repr

/-- Points in time (`time.Time`), kept abstract as integers. -/
abbrev Time := Int

/-- The `workload` struct.  `timeout` is `none` for a nil channel and
`some dur` for the channel returned by `time.After(dur)`.  The `ctx` field is
not stored: the only use of it is the receive from `ctx.Done()` in `isDone`,
whose readiness is an input of each poll. -/
structure workload where
  c : Config
  generated : Int
  timeout : Option Int
  endTime : Time
  deriving DecidableEq, Repr

/-- What the code takes from outside the file and that does not change during
a run: the rendering of `%p` for the workload pointer, `humanize.RelTime`, and
`time.Time.Add`. -/
structure Lib where
  ptr : String
  relTime : Time → Time → String → String → String
  timeAdd : Time → Int → Time

/-- Entries of the trace: a call of `work()`, a call of `done(canceled)`, the
line `done` passes to `log.Printf`, the line `itemDone` passes to
`log.Printf`. -/
inductive Event where
  | work
  | done (canceled : Bool)
  | logDone (line : String)
  | logItem (line : String)
  deriving DecidableEq, Repr

/-- Program state: the workload and the trace produced so far. -/
structure St where
  w : workload
  out : List Event
  deriving DecidableEq, Repr

/-- Result of a method: it returns a value, or the process was terminated by
`os.Exit(code)` in the middle of it. -/
inductive Res (α : Type) where
  | ret (a : α) (s : St)
  | exit (code : Int) (s : St)
  deriving DecidableEq, Repr

/-- Sequencing: the continuation runs only if the process is still alive. -/
def Res.andThen {α β : Type} (r : Res α) (f : α → St → Res β) : Res β :=
  match r with
  | Res.ret a s => f a s
  | Res.exit code s => Res.exit code s

/-- State in which a method ended. -/
def Res.st {α : Type} : Res α → St
  | Res.ret _ s => s
  | Res.exit _ s => s

/-- What one poll of `isDone` finds: whether `ctx.Done()` is ready to receive,
whether a value is available on the timer channel (meaningful only when one is
armed), and the branch Go's `select` picks when both are ready (the language
chooses among the ready cases by a uniform pseudo-random selection). -/
structure Poll where
  ctxDone : Bool
  timerFired : Bool
  pickTimer : Bool
  deriving DecidableEq, Repr

/-- Outcome of the three steps of `work()`. -/
inductive KeyGen where
  | keyErr (err : String)
  | sshErr (err : String)
  | ok (fingerprint : String)
  deriving DecidableEq, Repr

/-- Inputs of one loop iteration: the poll, the outcome of key generation and
the clock reading of `time.Now()` in `itemDone`. -/
structure Tick where
  poll : Poll
  key : KeyGen
  now : Time
  deriving DecidableEq, Repr

/-! ## The methods -/

/-- The line `done` logs, `"(ID %p) Workload exiting"`. -/
def exitLine (X : Lib) : String := "(ID " ++ X.ptr ++ ") Workload exiting"

/-- The line `itemDone` logs, `"(ID %p%s%s) Item done%s"` applied to the
workload pointer and the three strings. -/
def statusLine (X : Lib) (count timeleft desc : String) : String :=
  "(ID " ++ X.ptr ++ count ++ timeleft ++ ") Item done" ++ desc

/-- State after the call marker and the log line of `done(canceled)`. -/
def afterDone (X : Lib) (canceled : Bool) (s : St) : St :=
  { s with out := s.out ++ [Event.done canceled, Event.logDone (exitLine X)] }

/-- The method `done`: one log line, then `os.Exit(w.c.ExitCode)` unless the
stop was a cancellation or `ExitOnComplete` is off. -/
def done (X : Lib) (canceled : Bool) (s : St) : Res Unit :=
  let s1 : St := afterDone X canceled s
  if !canceled && s.w.c.ExitOnComplete then Res.exit s.w.c.ExitCode s1
  else Res.ret () s1

/-- Branch taken by the `select` statement of `isDone`. -/
inductive Sel where
  | ctxDone
  | timeout
  | dflt
  deriving DecidableEq, Repr

/-- The `select` of `isDone`: a receive from a nil channel is never ready, the
default branch runs when no receive is ready, and with both ready the branch
is the one the runtime picks. -/
def select (w : workload) (p : Poll) : Sel :=
  let timerReady := w.timeout.isSome && p.timerFired
  if p.ctxDone && timerReady then
    (if p.pickTimer then Sel.timeout else Sel.ctxDone)
  else if p.ctxDone then Sel.ctxDone
  else if timerReady then Sel.timeout
  else Sel.dflt

/-- The method `isDone`. -/
def isDone (X : Lib) (p : Poll) (s : St) : Res Bool :=
  match select s.w p with
  | Sel.ctxDone => (done X true s).andThen (fun _ s1 => Res.ret true s1)
  | Sel.timeout => (done X false s).andThen (fun _ s1 => Res.ret true s1)
  | Sel.dflt =>
    if s.w.c.NumToGen > 0 && s.w.generated ≥ s.w.c.NumToGen then
      (done X false s).andThen (fun _ s1 => Res.ret true s1)
    else Res.ret false s

/-- The method `work`: the description it returns, and the call recorded in
the trace. -/
def work (k : KeyGen) (s : St) : String × St :=
  let s1 : St := { s with out := s.out ++ [Event.work] }
  match k with
  | KeyGen.keyErr err => ("Error generating key: " ++ err, s1)
  | KeyGen.sshErr err => ("Error generating ssh key: " ++ err, s1)
  | KeyGen.ok fingerprint => (fingerprint, s1)

/-- The `count` string of `itemDone`, from the counter after the increment. -/
def countStr (c : Config) (generated : Int) : String :=
  if c.NumToGen > 0 then " " ++ toString generated ++ "/" ++ toString c.NumToGen
  else " " ++ toString generated ++ "/Inf"

/-- The `timeleft` string of `itemDone`. -/
def timeleftStr (X : Lib) (now : Time) (w : workload) : String :=
  if w.timeout.isSome then " " ++ X.relTime now w.endTime "left" "overdue"
  else ""

/-- The `desc` string of `itemDone` after its `len(desc) > 0` test (a string
has positive length exactly when it is not empty). -/
def descStr (desc : String) : String :=
  if desc.length > 0 then ": " ++ desc else desc

/-- The method `itemDone`. -/
def itemDone (X : Lib) (now : Time) (desc : String) (s : St) : St :=
  let w1 : workload := { s.w with generated := wrapInt (s.w.generated + 1) }
  let count := countStr w1.c w1.generated
  let timeleft := timeleftStr X now w1
  let desc1 := descStr desc
  { w := w1
    out := s.out ++ [Event.logItem (statusLine X count timeleft desc1)] }

/-- The first statement of `startWork`: with a positive `TimeToRun` the
deadline and the timer channel are set, otherwise both fields are left as they
are.  `time.Duration` is an `int64`, so the product wraps. -/
def arm (X : Lib) (t0 : Time) (w : workload) : workload :=
  if w.c.TimeToRun > 0 then
    let dur := wrapInt (w.c.TimeToRun * 1000000000)
    { w with endTime := X.timeAdd t0 dur, timeout := some dur }
  else w

/-- The loop body `w.itemDone(w.work())` under the inputs of one iteration. -/
def body (X : Lib) (t : Tick) (s : St) : St :=
  itemDone X t.now (work t.key s).1 (work t.key s).2

/-- How far a run got: still in the loop after the iterations it was given,
returned to the caller, or terminated the process. -/
inductive Run where
  | running (s : St)
  | returned (s : St)
  | exited (code : Int) (s : St)
  deriving DecidableEq, Repr

/-- State of a run. -/
def Run.st : Run → St
  | Run.running s => s
  | Run.returned s => s
  | Run.exited _ s => s

/-- The loop `for !w.isDone() { w.itemDone(w.work()) }`, for at most `fuel`
iterations; iteration `i` reads its inputs from `env i`. -/
def loop (X : Lib) (env : Nat → Tick) : Nat → Nat → St → Run
  | 0, _, s => Run.running s
  | fuel + 1, i, s =>
    match isDone X (env i).poll s with
    | Res.exit code s1 => Run.exited code s1
    | Res.ret true s1 => Run.returned s1
    | Res.ret false s1 => loop X env fuel (i + 1) (body X (env i) s1)

/-- The method `startWork`, called at time `t0` on workload `w` with an empty
trace. -/
def startWork (X : Lib) (env : Nat → Tick) (t0 : Time) (fuel : Nat) (w : workload) : Run :=
  loop X env fuel 0 { w := arm X t0 w, out := [] }

/-- Number of calls of `work()` recorded in a trace. -/
def workCalls (out : List Event) : Nat := out.count Event.work

/-! ## Concrete inputs -/

/-- A library instance for concrete runs: time is counted in nanoseconds and
`RelTime` is rendered as a fixed word. -/
def demoLib : Lib :=
  { ptr := "0xc000010000"
    relTime := fun _ _ albl _ => "soon " ++ albl
    timeAdd := fun t d => t + d }

/-- A fresh workload for configuration `c`: counter 0, no timer channel. -/
def fresh (c : Config) : workload :=
  { c := c, generated := 0, timeout := none, endTime := 0 }

/-- An environment in which nothing ever fires and every key generation
succeeds. -/
def quietEnv : Nat → Tick :=
  fun _ => { poll := { ctxDone := false, timerFired := false, pickTimer := false }
             key := KeyGen.ok "SHA256:abc"
             now := 5 }

/-- An environment in which the context is canceled from poll `m` on and some
key generations fail. -/
def cancelAfter (m : Nat) : Nat → Tick :=
  fun i => { poll := { ctxDone := decide (m ≤ i), timerFired := false, pickTimer := false }
             key := if i % 2 = 0 then KeyGen.keyErr "EOF" else KeyGen.ok "SHA256:abc"
             now := 5 }

/-- An environment in which the context is canceled from the start. -/
def canceledEnv : Nat → Tick :=
  fun _ => { poll := { ctxDone := true, timerFired := false, pickTimer := false }
             key := KeyGen.ok "SHA256:abc"
             now := 5 }

/-! ## Basic facts about the methods -/

theorem wrapInt_of_isInt (x : Int) (h : isInt x) : wrapInt x = x := by
  unfold isInt minInt maxInt at h
  unfold wrapInt
  omega

theorem done_true (X : Lib) (s : St) :
    done X true s = Res.ret () (afterDone X true s) := by
  simp [done, afterDone]

theorem done_false (X : Lib) (s : St) :
    done X false s =
      if s.w.c.ExitOnComplete then Res.exit s.w.c.ExitCode (afterDone X false s)
      else Res.ret () (afterDone X false s) := by
  simp [done, afterDone]

theorem isDone_ctxDone (X : Lib) (p : Poll) (s : St) (h : select s.w p = Sel.ctxDone) :
    isDone X p s = Res.ret true (afterDone X true s) := by
  simp [isDone, h, done_true, Res.andThen]

theorem isDone_timeout (X : Lib) (p : Poll) (s : St) (h : select s.w p = Sel.timeout) :
    isDone X p s =
      if s.w.c.ExitOnComplete then Res.exit s.w.c.ExitCode (afterDone X false s)
      else Res.ret true (afterDone X false s) := by
  simp only [isDone, h, done_false]
  split <;> simp [Res.andThen]

theorem isDone_count (X : Lib) (p : Poll) (s : St) (h : select s.w p = Sel.dflt)
    (hn : 0 < s.w.c.NumToGen) (hg : s.w.c.NumToGen ≤ s.w.generated) :
    isDone X p s =
      if s.w.c.ExitOnComplete then Res.exit s.w.c.ExitCode (afterDone X false s)
      else Res.ret true (afterDone X false s) := by
  simp only [isDone, h, done_false]
  have : (decide (s.w.c.NumToGen > 0) && decide (s.w.generated ≥ s.w.c.NumToGen)) = true := by
    simp [hn, hg]
  rw [if_pos this]
  split <;> simp [Res.andThen]

theorem isDone_continue (X : Lib) (p : Poll) (s : St) (h : select s.w p = Sel.dflt)
    (hc : ¬ (0 < s.w.c.NumToGen ∧ s.w.c.NumToGen ≤ s.w.generated)) :
    isDone X p s = Res.ret false s := by
  simp only [isDone, h]
  have : ¬ (decide (s.w.c.NumToGen > 0) && decide (s.w.generated ≥ s.w.c.NumToGen)) = true := by
    simpa using hc
  rw [if_neg this]

theorem select_nil (w : workload) (p : Poll) (h : w.timeout = none) :
    select w p = if p.ctxDone then Sel.ctxDone else Sel.dflt := by
  simp [select, h]

theorem descStr_eq (d : String) : descStr d = if d = "" then "" else ": " ++ d := by
  unfold descStr
  by_cases h : d = ""
  · subst h
    simp
  · have hl : d.length ≠ 0 := by
      intro h0
      apply h
      have : d.data = [] := List.length_eq_zero.mp h0
      exact String.ext this
    have : d.length > 0 := Nat.pos_of_ne_zero hl
    simp [h, this]

/-! ## Stop conditions and exit policy -/

/-- C2: when `isDone` stops because the timer branch of the `select` was taken
or because the count ceiling was reached, and `ExitOnComplete` is set, the
process is terminated with exactly `ExitCode`; when the cancellation branch was
taken, `isDone` returns true without terminating the process, whatever
`ExitOnComplete` is. -/
theorem exit_policy_asymmetry (X : Lib) (p : Poll) (s : St) :
    ((select s.w p = Sel.timeout ∨
        (select s.w p = Sel.dflt ∧ 0 < s.w.c.NumToGen ∧ s.w.c.NumToGen ≤ s.w.generated)) →
      s.w.c.ExitOnComplete = true →
      isDone X p s = Res.exit s.w.c.ExitCode (afterDone X false s)) ∧
    (select s.w p = Sel.ctxDone → isDone X p s = Res.ret true (afterDone X true s)) := by
  refine ⟨?_, isDone_ctxDone X p s⟩
  intro h he
  rcases h with h | ⟨h, hn, hg⟩
  · rw [isDone_timeout X p s h, if_pos he]
  · rw [isDone_count X p s h hn hg, if_pos he]

/-- Witness for C2: a fired timer with `ExitOnComplete` exits with code 7, a
reached ceiling exits with code 7, and a cancellation under the same
configuration returns. -/
theorem exit_policy_asymmetry_witness :
    isDone demoLib { ctxDone := false, timerFired := true, pickTimer := false }
        { w := { c := ⟨1, 0, true, 7⟩, generated := 0, timeout := some 1000000000, endTime := 9 },
          out := [] } =
      Res.exit 7
        { w := { c := ⟨1, 0, true, 7⟩, generated := 0, timeout := some 1000000000, endTime := 9 },
          out := [Event.done false, Event.logDone "(ID 0xc000010000) Workload exiting"] } ∧
    isDone demoLib { ctxDone := true, timerFired := false, pickTimer := false }
        { w := { c := ⟨1, 0, true, 7⟩, generated := 0, timeout := some 1000000000, endTime := 9 },
          out := [] } =
      Res.ret true
        { w := { c := ⟨1, 0, true, 7⟩, generated := 0, timeout := some 1000000000, endTime := 9 },
          out := [Event.done true, Event.logDone "(ID 0xc000010000) Workload exiting"] } ∧
    isDone demoLib { ctxDone := false, timerFired := false, pickTimer := false }
        { w := { c := ⟨0, 3, true, 7⟩, generated := 3, timeout := none, endTime := 0 },
          out := [] } =
      Res.exit 7
        { w := { c := ⟨0, 3, true, 7⟩, generated := 3, timeout := none, endTime := 0 },
          out := [Event.done false, Event.logDone "(ID 0xc000010000) Workload exiting"] } :=
  ⟨(exit_policy_asymmetry demoLib { ctxDone := false, timerFired := true, pickTimer := false }
      { w := { c := ⟨1, 0, true, 7⟩, generated := 0, timeout := some 1000000000, endTime := 9 },
        out := [] }).1 (Or.inl (by decide)) rfl,
   (exit_policy_asymmetry demoLib { ctxDone := true, timerFired := false, pickTimer := false }
      { w := { c := ⟨1, 0, true, 7⟩, generated := 0, timeout := some 1000000000, endTime := 9 },
        out := [] }).2 (by decide),
   (exit_policy_asymmetry demoLib { ctxDone := false, timerFired := false, pickTimer := false }
      { w := { c := ⟨0, 3, true, 7⟩, generated := 3, timeout := none, endTime := 0 },
        out := [] }).1 (Or.inr ⟨by decide, by decide, by decide⟩) rfl⟩

/-- C3, as stated, fails: with the context canceled and the armed timer fired
in the same poll, the `select` may take the timer branch; `done` is then called
with `canceled = false` and, `ExitOnComplete` being set, the process exits with
the configured code. -/
theorem tie_break_counterexample :
    (arm demoLib 0 (fresh ⟨1, 0, true, 7⟩)).timeout = some 1000000000 ∧
    isDone demoLib { ctxDone := true, timerFired := true, pickTimer := true }
        { w := arm demoLib 0 (fresh ⟨1, 0, true, 7⟩), out := [] } =
      Res.exit 7
        { w := arm demoLib 0 (fresh ⟨1, 0, true, 7⟩),
          out := [Event.done false, Event.logDone "(ID 0xc000010000) Workload exiting"] } := by
  exact ⟨by decide, by decide⟩

/-- C3, amended: when both the cancellation channel and the armed timer
channel are ready in a poll, the outcome follows the branch the `select` takes.
On the cancellation branch `done` is called with `canceled = true` and `isDone`
returns true without terminating the process; on the timer branch `done` is
called with `canceled = false`, which terminates the process with `ExitCode`
when `ExitOnComplete` is set and returns true otherwise. -/
theorem tie_break_follows_select (X : Lib) (p : Poll) (s : St)
    (hc : p.ctxDone = true) (ht : s.w.timeout.isSome = true) (hf : p.timerFired = true) :
    (p.pickTimer = false → isDone X p s = Res.ret true (afterDone X true s)) ∧
    (p.pickTimer = true →
      isDone X p s =
        if s.w.c.ExitOnComplete then Res.exit s.w.c.ExitCode (afterDone X false s)
        else Res.ret true (afterDone X false s)) := by
  constructor
  · intro hp
    apply isDone_ctxDone
    simp [select, hc, ht, hf, hp]
  · intro hp
    apply isDone_timeout
    simp [select, hc, ht, hf, hp]

/-- Witness for the amended C3: both channels ready, the cancellation branch
taken, `ExitOnComplete` set: `isDone` returns true and the process lives. -/
theorem tie_break_follows_select_witness :
    isDone demoLib { ctxDone := true, timerFired := true, pickTimer := false }
        { w := { c := ⟨1, 0, true, 7⟩, generated := 0, timeout := some 1000000000, endTime := 9 },
          out := [] } =
      Res.ret true
        { w := { c := ⟨1, 0, true, 7⟩, generated := 0, timeout := some 1000000000, endTime := 9 },
          out := [Event.done true, Event.logDone "(ID 0xc000010000) Workload exiting"] } :=
  (tie_break_follows_select demoLib { ctxDone := true, timerFired := true, pickTimer := false }
      { w := { c := ⟨1, 0, true, 7⟩, generated := 0, timeout := some 1000000000, endTime := 9 },
        out := [] } rfl rfl rfl).1 rfl

/-- C9: with a reached count ceiling (`NumToGen > 0`, `generated ≥ NumToGen`),
the context canceled and no value on the timer channel (not fired, or no timer
armed), `isDone` takes the cancellation branch: the trace gains exactly one
call of `done`, with `canceled = true`, and its log line, and `isDone` returns
true without terminating the process, whatever `ExitOnComplete` is.  The count
ceiling is what stops the same state when the context is not canceled: `done`
is then called with `canceled = false`. -/
theorem cancel_before_ceiling (X : Lib) (p : Poll) (s : St)
    (hn : 0 < s.w.c.NumToGen) (hg : s.w.c.NumToGen ≤ s.w.generated)
    (hc : p.ctxDone = true) (ht : p.timerFired = false ∨ s.w.timeout = none) :
    isDone X p s =
      Res.ret true
        { s with out := s.out ++ [Event.done true, Event.logDone (exitLine X)] } ∧
    isDone X { p with ctxDone := false } s =
      if s.w.c.ExitOnComplete then
        Res.exit s.w.c.ExitCode
          { s with out := s.out ++ [Event.done false, Event.logDone (exitLine X)] }
      else
        Res.ret true
          { s with out := s.out ++ [Event.done false, Event.logDone (exitLine X)] } := by
  have hsel : select s.w p = Sel.ctxDone := by
    rcases ht with ht | ht <;> simp [select, hc, ht]
  have hsel2 : select s.w { p with ctxDone := false } = Sel.dflt := by
    rcases ht with ht | ht <;> simp [select, ht]
  exact ⟨isDone_ctxDone X p s hsel, isDone_count X _ s hsel2 hn hg⟩

/-- Witness for C9: ceiling 3 reached, context canceled, no timer,
`ExitOnComplete` set. -/
theorem cancel_before_ceiling_witness :
    isDone demoLib { ctxDone := true, timerFired := false, pickTimer := false }
        { w := { c := ⟨0, 3, true, 7⟩, generated := 3, timeout := none, endTime := 0 },
          out := [] } =
      Res.ret true
        { w := { c := ⟨0, 3, true, 7⟩, generated := 3, timeout := none, endTime := 0 },
          out := [Event.done true, Event.logDone "(ID 0xc000010000) Workload exiting"] } :=
  (cancel_before_ceiling demoLib { ctxDone := true, timerFired := false, pickTimer := false }
    { w := { c := ⟨0, 3, true, 7⟩, generated := 3, timeout := none, endTime := 0 }, out := [] }
    (by decide) (by decide) rfl (Or.inl rfl)).1

/-! ## Status lines -/

/-- C7: the line `itemDone` emits consists, in this order, of the identity
`(ID <ptr>`, a space and the count fragment, the time-remaining fragment, the
text `) Item done` and the description fragment.  The count fragment is
`<generated>/<NumToGen>` if `NumToGen > 0` and `<generated>/Inf` otherwise,
where `<generated>` is the counter after the increment, that is the old counter
plus 1 in `int` arithmetic, which is also the value `itemDone` stores; the
description fragment is `: ` followed by `d` if `d` is not empty, and empty
otherwise. -/
theorem status_line_format (X : Lib) (now : Time) (d : String) (s : St) :
    (itemDone X now d s).w.generated = wrapInt (s.w.generated + 1) ∧
    (itemDone X now d s).out =
      s.out ++ [Event.logItem
        ("(ID " ++ X.ptr ++ " " ++
          (if 0 < s.w.c.NumToGen then
            toString (wrapInt (s.w.generated + 1)) ++ "/" ++ toString s.w.c.NumToGen
           else toString (wrapInt (s.w.generated + 1)) ++ "/Inf") ++
          (if s.w.timeout.isSome then " " ++ X.relTime now s.w.endTime "left" "overdue" else "") ++
          ") Item done" ++
          (if d = "" then "" else ": " ++ d))] := by
  refine ⟨rfl, ?_⟩
  simp only [itemDone, statusLine, countStr, timeleftStr, descStr_eq]
  by_cases hn : 0 < s.w.c.NumToGen
  · simp only [gt_iff_lt, hn, if_true, String.append_assoc]
  · simp only [gt_iff_lt, hn, if_false, String.append_assoc]

/-- Witness for C7: from counter 0 with ceiling 3 and no timer the line reads
`1/3`; from counter 4 without ceiling, with a timer and an empty description,
it reads `5/Inf` followed by the time fragment. -/
theorem status_line_format_witness :
    (itemDone demoLib 5 "SHA256:abc"
        { w := { c := ⟨0, 3, false, 0⟩, generated := 0, timeout := none, endTime := 0 },
          out := [] }).out =
      [Event.logItem "(ID 0xc000010000 1/3) Item done: SHA256:abc"] ∧
    (itemDone demoLib 5 ""
        { w := { c := ⟨1, 0, false, 0⟩, generated := 4, timeout := some 1000000000,
                 endTime := 9 },
          out := [] }).out =
      [Event.logItem "(ID 0xc000010000 5/Inf soon left) Item done"] :=
  ⟨(status_line_format demoLib 5 "SHA256:abc"
      { w := { c := ⟨0, 3, false, 0⟩, generated := 0, timeout := none, endTime := 0 },
        out := [] }).2.trans (by decide),
   (status_line_format demoLib 5 ""
      { w := { c := ⟨1, 0, false, 0⟩, generated := 4, timeout := some 1000000000,
               endTime := 9 },
        out := [] }).2.trans (by decide)⟩

/-! ## The loop -/

theorem work_out (k : KeyGen) (s : St) : (work k s).2 = { s with out := s.out ++ [Event.work] } := by
  cases k <;> rfl

theorem body_w (X : Lib) (t : Tick) (s : St) :
    (body X t s).w = { s.w with generated := wrapInt (s.w.generated + 1) } := by
  simp [body, itemDone, work_out]

theorem body_out (X : Lib) (t : Tick) (s : St) :
    (body X t s).out =
      s.out ++ [Event.work,
        Event.logItem (statusLine X (countStr s.w.c (wrapInt (s.w.generated + 1)))
          (timeleftStr X t.now s.w) (descStr (work t.key s).1))] := by
  simp [body, itemDone, work_out, timeleftStr]

theorem workCalls_afterDone (X : Lib) (c : Bool) (s : St) :
    workCalls (afterDone X c s).out = workCalls s.out := by
  simp [workCalls, afterDone, List.count_append, List.count_cons]

theorem workCalls_body (X : Lib) (t : Tick) (s : St) :
    workCalls (body X t s).out = workCalls s.out + 1 := by
  simp [workCalls, body_out, List.count_append, List.count_cons]

theorem isDone_cases (X : Lib) (p : Poll) (s : St) :
    (isDone X p s = Res.ret false s ∧
        ¬ (0 < s.w.c.NumToGen ∧ s.w.c.NumToGen ≤ s.w.generated)) ∨
      (∃ c, isDone X p s = Res.ret true (afterDone X c s)) ∨
      isDone X p s = Res.exit s.w.c.ExitCode (afterDone X false s) := by
  cases hsel : select s.w p with
  | ctxDone => exact Or.inr (Or.inl ⟨true, isDone_ctxDone X p s hsel⟩)
  | timeout =>
    rw [isDone_timeout X p s hsel]
    cases s.w.c.ExitOnComplete
    · exact Or.inr (Or.inl ⟨false, by simp⟩)
    · exact Or.inr (Or.inr (by simp))
  | dflt =>
    by_cases hc : 0 < s.w.c.NumToGen ∧ s.w.c.NumToGen ≤ s.w.generated
    · rw [isDone_count X p s hsel hc.1 hc.2]
      cases s.w.c.ExitOnComplete
      · exact Or.inr (Or.inl ⟨false, by simp⟩)
      · exact Or.inr (Or.inr (by simp))
    · exact Or.inl ⟨isDone_continue X p s hsel hc, hc⟩

theorem loop_continue (X : Lib) (env : Nat → Tick) (fuel i : Nat) (s : St)
    (h : isDone X (env i).poll s = Res.ret false s) :
    loop X env (fuel + 1) i s = loop X env fuel (i + 1) (body X (env i) s) := by
  simp [loop, h]

theorem loop_returned (X : Lib) (env : Nat → Tick) (fuel i : Nat) (s s1 : St)
    (h : isDone X (env i).poll s = Res.ret true s1) :
    loop X env (fuel + 1) i s = Run.returned s1 := by
  simp [loop, h]

theorem loop_exited (X : Lib) (env : Nat → Tick) (fuel i : Nat) (s s1 : St) (code : Int)
    (h : isDone X (env i).poll s = Res.exit code s1) :
    loop X env (fuel + 1) i s = Run.exited code s1 := by
  simp [loop, h]

/-- Invariants of the loop: a property of the state that survives the trace
entries of `done` and the loop body, when the body runs below the ceiling,
holds in every state of a run. -/
theorem loop_inv (X : Lib) (env : Nat → Tick) (I : St → Prop)
    (hdone : ∀ s c, I s → I (afterDone X c s))
    (hbody : ∀ s t, I s → ¬ (0 < s.w.c.NumToGen ∧ s.w.c.NumToGen ≤ s.w.generated) →
      I (body X t s)) :
    ∀ (fuel i : Nat) (s : St), I s → I (loop X env fuel i s).st := by
  intro fuel
  induction fuel with
  | zero => intro i s hs; simpa [loop, Run.st] using hs
  | succ n ih =>
    intro i s hs
    rcases isDone_cases X (env i).poll s with ⟨h, hc⟩ | ⟨c, h⟩ | h
    · rw [loop_continue X env n i s h]
      exact ih (i + 1) _ (hbody s (env i) hs hc)
    · rw [loop_returned X env n i s _ h]
      exact hdone s c hs
    · rw [loop_exited X env n i s _ _ h]
      exact hdone s false hs

theorem arm_of_nonpos (X : Lib) (t0 : Time) (w : workload) (h : w.c.TimeToRun ≤ 0) :
    arm X t0 w = w := by
  have : ¬ w.c.TimeToRun > 0 := by omega
  simp [arm, this]

/-- C8: with no deadline armed (`TimeToRun ≤ 0`, timer channel nil) and the
context already canceled at the first poll, `startWork` returns to its caller
after the call of `done(true)` and its log line: `work()` is not called, no
status line is logged, the workload is unchanged, so `generated` stays 0, and
the process is not terminated. -/
theorem stop_check_precedes_work (X : Lib) (env : Nat → Tick) (t0 : Time) (fuel : Nat)
    (w : workload) (hT : w.c.TimeToRun ≤ 0) (hto : w.timeout = none) (hg : w.generated = 0)
    (hc : (env 0).poll.ctxDone = true) :
    startWork X env t0 (fuel + 1) w =
        Run.returned { w := w, out := [Event.done true, Event.logDone (exitLine X)] } ∧
      (startWork X env t0 (fuel + 1) w).st.w.generated = 0 ∧
      workCalls (startWork X env t0 (fuel + 1) w).st.out = 0 ∧
      ∀ line, Event.logItem line ∉ (startWork X env t0 (fuel + 1) w).st.out := by
  have hsel : select w (env 0).poll = Sel.ctxDone := by
    rw [select_nil w _ hto, if_pos hc]
  have hrun : startWork X env t0 (fuel + 1) w =
      Run.returned { w := w, out := [Event.done true, Event.logDone (exitLine X)] } := by
    unfold startWork
    rw [arm_of_nonpos X t0 w hT]
    rw [loop_returned X env fuel 0 _ _ (isDone_ctxDone X (env 0).poll _ hsel)]
    simp [afterDone]
  rw [hrun]
  refine ⟨rfl, ?_, ?_, ?_⟩
  · simpa [Run.st] using hg
  · simp [Run.st, workCalls]
  · intro line
    simp [Run.st]

/-- Witness for C8: a fresh workload with ceiling 3 and `ExitOnComplete` set,
started under a canceled context, returns at once. -/
theorem stop_check_precedes_work_witness :
    startWork demoLib canceledEnv 0 5 (fresh ⟨0, 3, true, 7⟩) =
      Run.returned
        { w := fresh ⟨0, 3, true, 7⟩,
          out := [Event.done true, Event.logDone "(ID 0xc000010000) Workload exiting"] } :=
  (stop_check_precedes_work demoLib canceledEnv 0 4 (fresh ⟨0, 3, true, 7⟩)
    (by decide) rfl rfl rfl).1

/-- Below the ceiling of a count-bounded run without timer and cancellation,
the loop runs `m` more bodies, where `m` is the distance to the ceiling, and
then stops through `done(false)`. -/
theorem loop_to_ceiling (X : Lib) (env : Nat → Tick)
    (hctx : ∀ i, (env i).poll.ctxDone = false) :
    ∀ (m fuel i : Nat) (s : St), 0 ≤ s.w.generated → s.w.generated + m = s.w.c.NumToGen →
      0 < s.w.c.NumToGen → s.w.c.NumToGen ≤ maxInt → s.w.timeout = none → m < fuel →
      (loop X env fuel i s).st.w.generated = s.w.c.NumToGen ∧
      workCalls (loop X env fuel i s).st.out = workCalls s.out + m ∧
      (loop X env fuel i s).st.w.c = s.w.c ∧
      (s.w.c.ExitOnComplete = false → ∃ s1, loop X env fuel i s = Run.returned s1) ∧
      (s.w.c.ExitOnComplete = true →
        ∃ s1, loop X env fuel i s = Run.exited s.w.c.ExitCode s1) := by
  intro m
  induction m with
  | zero =>
    intro fuel i s h0 hgm hK hmax hto hfuel
    obtain ⟨n, rfl⟩ : ∃ n, fuel = n + 1 := ⟨fuel - 1, by omega⟩
    have hsel : select s.w (env i).poll = Sel.dflt := by
      rw [select_nil s.w _ hto, hctx i]
      simp
    have hge : s.w.c.NumToGen ≤ s.w.generated := by
      simp only [Nat.cast_zero, add_zero] at hgm
      omega
    have hd := isDone_count X (env i).poll s hsel hK hge
    cases he : s.w.c.ExitOnComplete with
    | false =>
      rw [he] at hd
      simp only [Bool.false_eq_true, if_false] at hd
      rw [loop_returned X env n i s _ hd]
      refine ⟨?_, ?_, ?_, ?_, ?_⟩
      · simp only [Run.st, afterDone]
        simp only [Nat.cast_zero, add_zero] at hgm
        exact hgm
      · simp [Run.st, workCalls_afterDone]
      · simp [Run.st, afterDone]
      · intro _
        exact ⟨_, rfl⟩
      · intro h
        cases h
    | true =>
      rw [he] at hd
      simp only [if_true] at hd
      rw [loop_exited X env n i s _ _ hd]
      refine ⟨?_, ?_, ?_, ?_, ?_⟩
      · simp only [Run.st, afterDone]
        simp only [Nat.cast_zero, add_zero] at hgm
        exact hgm
      · simp [Run.st, workCalls_afterDone]
      · simp [Run.st, afterDone]
      · intro h
        cases h
      · intro _
        exact ⟨_, rfl⟩
  | succ k ih =>
    intro fuel i s h0 hgm hK hmax hto hfuel
    obtain ⟨n, rfl⟩ : ∃ n, fuel = n + 1 := ⟨fuel - 1, by omega⟩
    have hsel : select s.w (env i).poll = Sel.dflt := by
      rw [select_nil s.w _ hto, hctx i]
      simp
    have hlt : ¬ (0 < s.w.c.NumToGen ∧ s.w.c.NumToGen ≤ s.w.generated) := by
      push_cast at hgm
      omega
    rw [loop_continue X env n i s (isDone_continue X (env i).poll s hsel hlt)]
    have hw := body_w X (env i) s
    have hwrap : wrapInt (s.w.generated + 1) = s.w.generated + 1 := by
      apply wrapInt_of_isInt
      unfold isInt minInt
      push_cast at hgm
      constructor <;> omega
    rw [hwrap] at hw
    have hgen : (body X (env i) s).w.generated = s.w.generated + 1 := by rw [hw]
    have hcfg : (body X (env i) s).w.c = s.w.c := by rw [hw]
    have htm : (body X (env i) s).w.timeout = none := by rw [hw]; exact hto
    have := ih n (i + 1) (body X (env i) s) (by rw [hgen]; omega)
      (by rw [hgen, hcfg]; push_cast at hgm; omega) (by rw [hcfg]; exact hK)
      (by rw [hcfg]; exact hmax) htm (by omega)
    rw [hcfg, workCalls_body] at this
    obtain ⟨a, b, c, d, e⟩ := this
    exact ⟨a, by rw [b]; omega, c, d, e⟩

/-- C1: in a count-bounded run (`NumToGen = K > 0`, `TimeToRun = 0`) of a new
workload (counter 0, no timer channel) whose context is never canceled,
`startWork` halts once it is given more than `K` iterations; when it halts
`work()` has been called exactly `K` times and `generated` equals `K`; the halt
is a return when `ExitOnComplete` is off and a process exit with `ExitCode`
when it is on. -/
theorem count_ceiling (X : Lib) (env : Nat → Tick) (t0 : Time) (fuel : Nat) (w : workload)
    (K : Nat) (hK : 0 < K) (hN : w.c.NumToGen = K) (hmax : w.c.NumToGen ≤ maxInt)
    (hT : w.c.TimeToRun = 0) (hg : w.generated = 0) (hto : w.timeout = none)
    (hctx : ∀ i, (env i).poll.ctxDone = false) (hfuel : K < fuel) :
    workCalls (startWork X env t0 fuel w).st.out = K ∧
      (startWork X env t0 fuel w).st.w.generated = K ∧
      (w.c.ExitOnComplete = false → ∃ s1, startWork X env t0 fuel w = Run.returned s1) ∧
      (w.c.ExitOnComplete = true →
        ∃ s1, startWork X env t0 fuel w = Run.exited w.c.ExitCode s1) := by
  unfold startWork
  rw [arm_of_nonpos X t0 w (by omega)]
  have h := loop_to_ceiling X env hctx K fuel 0 { w := w, out := [] }
    (by simp [hg]) (by simp [hg, hN]) (by simp [hN, hK]) hmax hto hfuel
  obtain ⟨a, b, _, d, e⟩ := h
  refine ⟨?_, ?_, d, e⟩
  · simpa [workCalls] using b
  · rw [a]
    exact hN

/-- Witness for C1: ceiling 3, no time limit, `ExitOnComplete` set with code 7,
no cancellation: three calls of `work()`, counter 3, exit with code 7. -/
theorem count_ceiling_witness :
    workCalls (startWork demoLib quietEnv 0 4 (fresh ⟨0, 3, true, 7⟩)).st.out = 3 ∧
      (startWork demoLib quietEnv 0 4 (fresh ⟨0, 3, true, 7⟩)).st.w.generated = 3 ∧
      ∃ s1, startWork demoLib quietEnv 0 4 (fresh ⟨0, 3, true, 7⟩) = Run.exited 7 s1 :=
  have h := count_ceiling demoLib quietEnv 0 4 (fresh ⟨0, 3, true, 7⟩) 3 (by decide) rfl
    (by decide) rfl rfl rfl (fun _ => rfl) (by decide)
  ⟨h.1, h.2.1, h.2.2.2 rfl⟩

theorem loop_add (X : Lib) (env : Nat → Tick) :
    ∀ (a b i : Nat) (s : St),
      loop X env (a + b) i s =
        match loop X env a i s with
        | Run.running s1 => loop X env b (i + a) s1
        | r => r := by
  intro a
  induction a with
  | zero => intro b i s; simp [loop]
  | succ n ih =>
    intro b i s
    rw [show n + 1 + b = (n + b) + 1 by omega]
    rcases isDone_cases X (env i).poll s with ⟨h, _⟩ | ⟨c, h⟩ | h
    · rw [loop_continue X env _ i s h, loop_continue X env _ i s h, ih b (i + 1)]
      rw [show i + 1 + n = i + (n + 1) by omega]
    · rw [loop_returned X env _ i s _ h, loop_returned X env _ i s _ h]
    · rw [loop_exited X env _ i s _ _ h, loop_exited X env _ i s _ _ h]

/-- Without ceiling and timer the loop keeps running for as long as the
context is not canceled. -/
theorem loop_unbounded (X : Lib) (env : Nat → Tick) :
    ∀ (n i : Nat) (s : St), s.w.c.NumToGen ≤ 0 → s.w.timeout = none →
      (∀ j, j < n → (env (i + j)).poll.ctxDone = false) →
      ∃ s1, loop X env n i s = Run.running s1 ∧ workCalls s1.out = workCalls s.out + n ∧
        s1.w.c = s.w.c ∧ s1.w.timeout = none := by
  intro n
  induction n with
  | zero => intro i s _ hto _; exact ⟨s, by simp [loop], by simp, rfl, hto⟩
  | succ k ih =>
    intro i s hN hto hctx
    have hsel : select s.w (env i).poll = Sel.dflt := by
      have := hctx 0 (by omega)
      rw [select_nil s.w _ hto]
      simp only [add_zero] at this
      simp [this]
    have hlt : ¬ (0 < s.w.c.NumToGen ∧ s.w.c.NumToGen ≤ s.w.generated) := by omega
    rw [loop_continue X env k i s (isDone_continue X (env i).poll s hsel hlt)]
    have hw := body_w X (env i) s
    have hcfg : (body X (env i) s).w.c = s.w.c := by rw [hw]
    have htm : (body X (env i) s).w.timeout = none := by rw [hw]; exact hto
    obtain ⟨s1, h1, h2, h3, h4⟩ := ih (i + 1) (body X (env i) s) (by rw [hcfg]; exact hN) htm
      (fun j hj => by
        have := hctx (j + 1) (by omega)
        rw [show i + 1 + j = i + (j + 1) by omega]
        exact this)
    refine ⟨s1, h1, ?_, by rw [h3, hcfg], h4⟩
    rw [h2, workCalls_body]
    omega

/-- C4: with `NumToGen ≤ 0`, `TimeToRun ≤ 0` and the timer channel nil, for
every value of `generated` a poll of `isDone` returns true when the context is
canceled and false when it is not, and never terminates the process.  Hence a
run whose context is not canceled during its first `n` polls is still in the
loop after `n` calls of `work()`, for every `n`; and if the context is canceled
at the next poll the run returns there, after exactly `n` calls. -/
theorem unbounded_by_default (X : Lib) (env : Nat → Tick) (t0 : Time) (w : workload) (n : Nat)
    (hN : w.c.NumToGen ≤ 0) (hT : w.c.TimeToRun ≤ 0) (hto : w.timeout = none) :
    (∀ (p : Poll) (g : Int) (out : List Event),
      isDone X p { w := { w with generated := g }, out := out } =
        if p.ctxDone then
          Res.ret true (afterDone X true { w := { w with generated := g }, out := out })
        else Res.ret false { w := { w with generated := g }, out := out }) ∧
    ((∀ j, j < n → (env j).poll.ctxDone = false) →
      (∃ s1, startWork X env t0 n w = Run.running s1 ∧ workCalls s1.out = n) ∧
      ((env n).poll.ctxDone = true → ∀ fuel, n < fuel →
        ∃ s1, startWork X env t0 fuel w = Run.returned s1 ∧ workCalls s1.out = n)) := by
  constructor
  · intro p g out
    have hsel := select_nil { w with generated := g } p hto
    cases hp : p.ctxDone with
    | true =>
      rw [hp] at hsel
      simpa using isDone_ctxDone X p { w := { w with generated := g }, out := out } hsel
    | false =>
      rw [hp] at hsel
      have hlt : ¬ (0 < w.c.NumToGen ∧ w.c.NumToGen ≤ g) := by omega
      simpa using isDone_continue X p { w := { w with generated := g }, out := out } hsel hlt
  · intro hctx
    obtain ⟨s1, h1, h2, h3, h4⟩ := loop_unbounded X env n 0 { w := w, out := [] } hN hto
      (fun j hj => by simpa using hctx j hj)
    have hstart : startWork X env t0 n w = Run.running s1 := by
      unfold startWork
      rw [arm_of_nonpos X t0 w hT]
      exact h1
    have hcalls : workCalls s1.out = n := by simpa [workCalls] using h2
    refine ⟨⟨s1, hstart, hcalls⟩, ?_⟩
    intro hc fuel hfuel
    obtain ⟨k, rfl⟩ : ∃ k, fuel = n + (k + 1) := ⟨fuel - n - 1, by omega⟩
    have hsel : select s1.w (env n).poll = Sel.ctxDone := by
      rw [select_nil s1.w _ h4, if_pos hc]
    refine ⟨afterDone X true s1, ?_, ?_⟩
    · unfold startWork
      rw [arm_of_nonpos X t0 w hT, loop_add X env n (k + 1) 0, h1]
      simp only [zero_add]
      exact loop_returned X env k n s1 _ (isDone_ctxDone X (env n).poll s1 hsel)
    · rw [workCalls_afterDone]
      exact hcalls

/-- Witness for C4: no ceiling, no time limit, context canceled at the third
poll: the run is in the loop after two calls of `work()` and returns at the
third poll. -/
theorem unbounded_by_default_witness :
    (∃ s1, startWork demoLib (cancelAfter 2) 0 2 (fresh ⟨0, 0, true, 7⟩) = Run.running s1 ∧
      workCalls s1.out = 2) ∧
    ∃ s1, startWork demoLib (cancelAfter 2) 0 9 (fresh ⟨0, 0, true, 7⟩) = Run.returned s1 ∧
      workCalls s1.out = 2 :=
  have h := (unbounded_by_default demoLib (cancelAfter 2) 0 (fresh ⟨0, 0, true, 7⟩) 2
    (by decide) (by decide) rfl).2
    (fun j hj => by
      have : ¬ 2 ≤ j := by omega
      simp [cancelAfter, this])
  ⟨h.1, h.2 (by decide) 9 (by decide)⟩

/-! ## The counter -/

theorem arm_c (X : Lib) (t0 : Time) (w : workload) : (arm X t0 w).c = w.c := by
  unfold arm
  split <;> rfl

theorem arm_generated (X : Lib) (t0 : Time) (w : workload) :
    (arm X t0 w).generated = w.generated := by
  unfold arm
  split <;> rfl

theorem mem_afterDone (X : Lib) (c : Bool) (s : St) (line : String) :
    Event.logItem line ∈ (afterDone X c s).out ↔ Event.logItem line ∈ s.out := by
  simp [afterDone]

theorem mem_body (X : Lib) (t : Tick) (s : St) (line : String) :
    Event.logItem line ∈ (body X t s).out ↔
      Event.logItem line ∈ s.out ∨
        line = statusLine X (countStr s.w.c (wrapInt (s.w.generated + 1)))
          (timeleftStr X t.now s.w) (descStr (work t.key s).1) := by
  simp [body_out]

/-- C10: in a run with ceiling `NumToGen = K > 0` started at `generated = 0`,
whatever the context, the timer and the `select` do, every state of the run has
`0 ≤ generated ≤ K`, and every status line in its trace carries a count
fragment `<g>/<K>` with `1 ≤ g ≤ K`. -/
theorem no_overshoot (X : Lib) (env : Nat → Tick) (t0 : Time) (fuel : Nat) (w : workload)
    (hK : 0 < w.c.NumToGen) (hmax : w.c.NumToGen ≤ maxInt) (hg : w.generated = 0) :
    0 ≤ (startWork X env t0 fuel w).st.w.generated ∧
      (startWork X env t0 fuel w).st.w.generated ≤ w.c.NumToGen ∧
      ∀ line, Event.logItem line ∈ (startWork X env t0 fuel w).st.out →
        ∃ (g : Int) (timeleft desc : String), 1 ≤ g ∧ g ≤ w.c.NumToGen ∧
          line = statusLine X (" " ++ toString g ++ "/" ++ toString w.c.NumToGen)
            timeleft desc := by
  have key := loop_inv X env
    (fun s => s.w.c = w.c ∧ 0 ≤ s.w.generated ∧ s.w.generated ≤ w.c.NumToGen ∧
      ∀ line, Event.logItem line ∈ s.out →
        ∃ (g : Int) (timeleft desc : String), 1 ≤ g ∧ g ≤ w.c.NumToGen ∧
          line = statusLine X (" " ++ toString g ++ "/" ++ toString w.c.NumToGen)
            timeleft desc)
    (by
      rintro s c ⟨h1, h2, h3, h4⟩
      refine ⟨h1, h2, h3, ?_⟩
      intro line hl
      exact h4 line ((mem_afterDone X c s line).mp hl))
    (by
      rintro s t ⟨h1, h2, h3, h4⟩ hlt
      rw [h1] at hlt
      have hwrap : wrapInt (s.w.generated + 1) = s.w.generated + 1 := by
        apply wrapInt_of_isInt
        unfold isInt minInt
        constructor <;> omega
      have hw := body_w X t s
      rw [hwrap] at hw
      refine ⟨by rw [hw]; exact h1, by rw [hw]; show 0 ≤ s.w.generated + 1; omega,
        by rw [hw]; show s.w.generated + 1 ≤ w.c.NumToGen; omega, ?_⟩
      intro line hl
      rcases (mem_body X t s line).mp hl with hl | hl
      · exact h4 line hl
      · refine ⟨s.w.generated + 1, timeleftStr X t.now s.w, descStr (work t.key s).1,
          by omega, by omega, ?_⟩
        rw [hl, hwrap, h1]
        simp [countStr, hK])
    fuel 0 { w := arm X t0 w, out := [] }
    (by
      refine ⟨arm_c X t0 w, ?_, ?_, ?_⟩
      · show 0 ≤ (arm X t0 w).generated
        rw [arm_generated, hg]
      · show (arm X t0 w).generated ≤ w.c.NumToGen
        rw [arm_generated, hg]
        omega
      · intro line hl
        simp at hl)
  exact ⟨key.2.1, key.2.2.1, key.2.2.2⟩

/-- Witness for C10: ceiling 3, context canceled from the third poll on. -/
theorem no_overshoot_witness :
    (startWork demoLib (cancelAfter 2) 0 9 (fresh ⟨0, 3, true, 7⟩)).st.w.generated ≤ 3 :=
  (no_overshoot demoLib (cancelAfter 2) 0 9 (fresh ⟨0, 3, true, 7⟩)
    (by decide) (by decide) rfl).2.1

/-! ## The time-remaining fragment -/

theorem space_append_ne_empty (x : String) : " " ++ x ≠ "" := by
  intro h
  have hl := congrArg String.length h
  rw [String.length_append] at hl
  have h1 : " ".length = 1 := rfl
  have h0 : "".length = 0 := rfl
  omega

theorem timeleftStr_congr (X : Lib) (now : Time) (w1 w2 : workload)
    (ht : w1.timeout = w2.timeout) (he : w1.endTime = w2.endTime) :
    timeleftStr X now w1 = timeleftStr X now w2 := by
  simp [timeleftStr, ht, he]

/-- Every status line of a run is built from the configuration and the timer
fields that `startWork` set at the start. -/
theorem run_lines (X : Lib) (env : Nat → Tick) (t0 : Time) (fuel : Nat) (w : workload)
    (line : String) (hl : Event.logItem line ∈ (startWork X env t0 fuel w).st.out) :
    ∃ (g : Int) (now : Time) (d : String),
      line = statusLine X (countStr w.c g) (timeleftStr X now (arm X t0 w)) (descStr d) := by
  have key := loop_inv X env
    (fun s => s.w.c = w.c ∧ s.w.timeout = (arm X t0 w).timeout ∧
      s.w.endTime = (arm X t0 w).endTime ∧
      ∀ line, Event.logItem line ∈ s.out →
        ∃ (g : Int) (now : Time) (d : String),
          line = statusLine X (countStr w.c g) (timeleftStr X now (arm X t0 w)) (descStr d))
    (by
      rintro s c ⟨h1, h2, h3, h4⟩
      exact ⟨h1, h2, h3, fun line hl => h4 line ((mem_afterDone X c s line).mp hl)⟩)
    (by
      rintro s t ⟨h1, h2, h3, h4⟩ _
      have hw := body_w X t s
      refine ⟨by rw [hw]; exact h1, by rw [hw]; exact h2, by rw [hw]; exact h3, ?_⟩
      intro line hl
      rcases (mem_body X t s line).mp hl with hl | hl
      · exact h4 line hl
      · refine ⟨wrapInt (s.w.generated + 1), t.now, (work t.key s).1, ?_⟩
        rw [hl, h1, timeleftStr_congr X t.now s.w (arm X t0 w) h2 h3])
    fuel 0 { w := arm X t0 w, out := [] }
    (by
      refine ⟨arm_c X t0 w, rfl, rfl, ?_⟩
      intro line hl
      simp at hl)
  exact key.2.2.2 line hl

/-- C6: take any status line logged by `itemDone` in a run of `startWork`.  If
`TimeToRun = 0` (and the workload is new, its timer channel nil), the
time-remaining fragment of the line is the empty string.  If `TimeToRun > 0`,
the fragment is a space followed by `RelTime` of the current time and the
deadline computed at the start, which is not the empty string. -/
theorem report_time_fragment (X : Lib) (env : Nat → Tick) (t0 : Time) (fuel : Nat)
    (w : workload) (line : String)
    (hl : Event.logItem line ∈ (startWork X env t0 fuel w).st.out) :
    (w.c.TimeToRun = 0 → w.timeout = none →
      ∃ (g : Int) (d : String), line = statusLine X (countStr w.c g) "" (descStr d)) ∧
    (0 < w.c.TimeToRun →
      ∃ (g : Int) (now : Time) (d frag : String),
        frag = " " ++ X.relTime now (X.timeAdd t0 (wrapInt (w.c.TimeToRun * 1000000000)))
          "left" "overdue" ∧
        frag ≠ "" ∧ line = statusLine X (countStr w.c g) frag (descStr d)) := by
  obtain ⟨g, now, d, hline⟩ := run_lines X env t0 fuel w line hl
  constructor
  · intro hT hto
    refine ⟨g, d, ?_⟩
    rw [hline, arm_of_nonpos X t0 w (by omega)]
    simp [timeleftStr, hto]
  · intro hT
    refine ⟨g, now, d, _, rfl, space_append_ne_empty _, ?_⟩
    rw [hline]
    simp [timeleftStr, arm, hT]

/-- Witness for C6: the first status line of a run without time limit, and the
first status line of a run with a time limit of one second. -/
theorem report_time_fragment_witness :
    (∃ (g : Int) (d : String),
      "(ID 0xc000010000 1/Inf) Item done: SHA256:abc" =
        statusLine demoLib (countStr ⟨0, 0, false, 0⟩ g) "" (descStr d)) ∧
    (∃ (g : Int) (now : Time) (d frag : String),
      frag = " " ++ demoLib.relTime now (demoLib.timeAdd 0 (wrapInt (1 * 1000000000)))
          "left" "overdue" ∧
        frag ≠ "" ∧
        "(ID 0xc000010000 1/Inf soon left) Item done: SHA256:abc" =
          statusLine demoLib (countStr ⟨1, 0, false, 0⟩ g) frag (descStr d)) :=
  ⟨(report_time_fragment demoLib quietEnv 0 1 (fresh ⟨0, 0, false, 0⟩)
      "(ID 0xc000010000 1/Inf) Item done: SHA256:abc" (by decide)).1 rfl rfl,
   (report_time_fragment demoLib quietEnv 0 1 (fresh ⟨1, 0, false, 0⟩)
      "(ID 0xc000010000 1/Inf soon left) Item done: SHA256:abc" (by decide)).2 (by decide)⟩

/-! ## Monotonicity of the counter -/

end Keygen
